import Mathlib

/-!
Shallow embedding of the metaball / blob-physics core of
`src/manim-hero/dem_hero.py`.

The field evaluator (class `MetaballField`) uses only rational arithmetic
(additions, multiplications, divisions and comparisons), so it is embedded
over `ℚ` and every concrete evaluation can be settled by `norm_num`.  The
spring body (class `BlobPhysics`) takes a square root when deriving the
stretch radius, so it is embedded over `ℝ` with `Real.sqrt`; its
position/velocity dynamics are still rational and are mirrored by an
integer-valued trajectory (`itraj`, numerators over the denominator
`500 ^ k`) for concrete computations.
-/

namespace DemHero

/-- One metaball influence source, the `[x, y, radius]` triple stored in
`MetaballField.blobs` (see `MetaballField.add_blob`). -/
structure Blob where
  x : ℚ
  y : ℚ
  r : ℚ

/-- Embedding of the `MetaballField` class: a threshold fixed at
construction and a mutable list of blobs. -/
structure MetaballField where
  threshold : ℚ
  blobs : List Blob

/-- Embedding of `MetaballField.add_blob`: `self.blobs.append([x, y, radius])`. -/
def MetaballField.add_blob (f : MetaballField) (x y radius : ℚ) : MetaballField :=
  { threshold := f.threshold, blobs := f.blobs ++ [⟨x, y, radius⟩] }

/-- Embedding of `MetaballField.clear_blobs`: `self.blobs = []`. -/
def MetaballField.clear_blobs (f : MetaballField) : MetaballField :=
  { threshold := f.threshold, blobs := [] }

/-- Embedding of `MetaballField.set_blobs`: `self.blobs = [list(b) for b in blobs]`. -/
def MetaballField.set_blobs (f : MetaballField) (blobs : List Blob) : MetaballField :=
  { threshold := f.threshold, blobs := blobs }

/-- Embedding of `MetaballField.field_value`: the accumulation loop
`total += (r * r) / (dx * dx + dy * dy + 0.0001)` started from `0.0`,
with `dx = x - bx` and `dy = y - by`. -/
def MetaballField.field_value (f : MetaballField) (x y : ℚ) : ℚ :=
  f.blobs.foldl
    (fun total b =>
      total + (b.r * b.r) / ((x - b.x) * (x - b.x) + (y - b.y) * (y - b.y) + 0.0001))
    0

/-- Embedding of `MetaballField.is_inside`:
`self.field_value(x, y) >= self.threshold`. -/
def MetaballField.is_inside (f : MetaballField) (x y : ℚ) : Bool :=
  decide (f.threshold ≤ f.field_value x y)

/-- Embedding of `MetaballField.get_boundary_points`: the double loop over
`i, j in range(resolution)` that samples `is_inside` at the four corners of
each grid cell and appends the cell center exactly when
`not all(corners) and any(corners)`.  The `flatMap`/`filterMap` combination
produces the appended points in the same row-major order as the Python
loop. -/
def MetaballField.get_boundary_points (f : MetaballField) (resolution : ℕ)
    (bounds : ℚ × ℚ × ℚ × ℚ) : List (ℚ × ℚ) :=
  match bounds with
  | (x_min, x_max, y_min, y_max) =>
    let step_x := (x_max - x_min) / (resolution : ℚ)
    let step_y := (y_max - y_min) / (resolution : ℚ)
    (List.range resolution).flatMap fun i =>
      (List.range resolution).filterMap fun j =>
        let x := x_min + (i : ℚ) * step_x
        let y := y_min + (j : ℚ) * step_y
        let c0 := f.is_inside x y
        let c1 := f.is_inside (x + step_x) y
        let c2 := f.is_inside (x + step_x) (y + step_y)
        let c3 := f.is_inside x (y + step_y)
        if (!(c0 && c1 && c2 && c3)) && (c0 || c1 || c2 || c3) then
          some (x + step_x / 2, y + step_y / 2)
        else
          none

/-- Specification-side variant of `MetaballField.get_boundary_points`, with
the emission condition phrased as the spec phrases it: the cell center is
emitted exactly when the four corner classifications are not all equal.
Used only to compare against the source-side definition (claim C4). -/
def get_boundary_points_spec (f : MetaballField) (resolution : ℕ)
    (bounds : ℚ × ℚ × ℚ × ℚ) : List (ℚ × ℚ) :=
  match bounds with
  | (x_min, x_max, y_min, y_max) =>
    let step_x := (x_max - x_min) / (resolution : ℚ)
    let step_y := (y_max - y_min) / (resolution : ℚ)
    (List.range resolution).flatMap fun i =>
      (List.range resolution).filterMap fun j =>
        let x := x_min + (i : ℚ) * step_x
        let y := y_min + (j : ℚ) * step_y
        let c0 := f.is_inside x y
        let c1 := f.is_inside (x + step_x) y
        let c2 := f.is_inside (x + step_x) (y + step_y)
        let c3 := f.is_inside x (y + step_y)
        if c0 = c1 ∧ c1 = c2 ∧ c2 = c3 then
          none
        else
          some (x + step_x / 2, y + step_y / 2)

/-- Possible outcomes of `MetaballMobject.generate_points`:
`placeholder` stands for `set_points([ORIGIN])` (degenerate boundary),
`smooth pts` for `set_points_smoothly` on the closed hull path, and
`fallback_circle` for the `Circle(radius=1)` fallback taken in the
`except` branch when hull construction fails. -/
inductive GenPoints where
  | placeholder : GenPoints
  | smooth (pts : List (ℚ × ℚ)) : GenPoints
  | fallback_circle : GenPoints

/-- Embedding of `MetaballMobject.generate_points`.  The convex hull is
computed by `scipy.spatial.ConvexHull`, which is external to this
repository, so it is modelled as an oracle `hull` that returns `none`
exactly when `ConvexHull` (or the subsequent point processing inside the
`try` block) raises; `some hull_points` is the list of hull vertices, and
the source appends the first point again to close the path.  Every control
path returns a constructor of `GenPoints`, mirroring that the Python
method always returns normally instead of raising. -/
def generate_points (hull : List (ℚ × ℚ) → Option (List (ℚ × ℚ)))
    (f : MetaballField) (resolution : ℕ) : GenPoints :=
  let boundary := f.get_boundary_points resolution (-8, 8, -4.5, 4.5)
  if boundary.length < 3 then
    GenPoints.placeholder
  else
    match hull boundary with
    | some hull_points => GenPoints.smooth (hull_points ++ hull_points.take 1)
    | none => GenPoints.fallback_circle

/-- Embedding of the `BlobPhysics` state: mutable position, velocity and
radius together with the tuning constants set in `__init__`. -/
structure BlobPhysics where
  x : ℝ
  y : ℝ
  vx : ℝ
  vy : ℝ
  base_radius : ℝ
  radius : ℝ
  stiffness : ℝ
  damping : ℝ
  max_stretch : ℝ

/-- Embedding of `BlobPhysics.__init__(x, y, radius)`: zero velocity, both
radii set to `radius`, and the constants `stiffness = 0.08`,
`damping = 0.85`, `max_stretch = 1.5`. -/
noncomputable def BlobPhysics.init (x y radius : ℝ) : BlobPhysics :=
  ⟨x, y, 0, 0, radius, radius, 0.08, 0.85, 1.5⟩

/-- Embedding of `BlobPhysics.update(target_x, target_y, dt)`.  The source
accepts `dt` but never reads it, and this embedding keeps the unused
parameter. -/
noncomputable def BlobPhysics.update (s : BlobPhysics) (target_x target_y : ℝ)
    (dt : ℝ) : BlobPhysics :=
  let dx := target_x - s.x
  let dy := target_y - s.y
  let vx := (s.vx + dx * s.stiffness) * s.damping
  let vy := (s.vy + dy * s.stiffness) * s.damping
  let x := s.x + vx
  let y := s.y + vy
  let speed := Real.sqrt (vx ^ 2 + vy ^ 2)
  let stretch_factor := min (speed / 0.5) (s.max_stretch - 1)
  ⟨x, y, vx, vy, s.base_radius, s.base_radius * (1 + stretch_factor * 0.3),
    s.stiffness, s.damping, s.max_stretch⟩

/-- Embedding of `BlobPhysics.get_position`. -/
def BlobPhysics.get_position (s : BlobPhysics) : ℝ × ℝ :=
  (s.x, s.y)

/-- Trajectory of the spec scenario for claim C9: a body constructed at the
origin with base radius `1.5`, updated each tick toward target `(3, 0)`
with `dt = 1/60`. -/
noncomputable def traj : ℕ → BlobPhysics
  | 0 => BlobPhysics.init 0 0 1.5
  | k + 1 => (traj k).update 3 0 (1 / 60)

/-- Integer mirror of one `traj` step.  A state `(a, b, p)` codes position
`x = a / p` and velocity `vx = b / p`; one spring step multiplies the
denominator by `500 = 20 * 25` (from `damping = 17/20` and
`stiffness = 2/25`). -/
def istep : ℤ × ℤ × ℤ → ℤ × ℤ × ℤ :=
  fun s =>
    let b := 17 * (25 * s.2.1 + 2 * (3 * s.2.2 - s.1))
    (500 * s.1 + b, b, 500 * s.2.2)

/-- Integer mirror of the C9 trajectory, starting from `x = 0`, `vx = 0`
with denominator `1`. -/
def itraj : ℕ → ℤ × ℤ × ℤ
  | 0 => (0, 0, 1)
  | k + 1 => istep (itraj k)

/-! Helper lemmas. -/

/-- Accumulating `g` over a list starting from `init` is `init` plus the
sum of the mapped list. -/
theorem foldl_add_eq_add_sum (g : Blob → ℚ) :
    ∀ (l : List Blob) (init : ℚ),
      l.foldl (fun total b => total + g b) init = init + (l.map g).sum := by
  intro l
  induction l with
  | nil => intro init; simp
  | cons b l ih =>
    intro init
    simp only [List.foldl_cons, List.map_cons, List.sum_cons, ih]
    ring

/-- Boolean bookkeeping for the boundary scan: the source condition
`not all(corners) and any(corners)` emits exactly when the four corner
booleans are not all equal. -/
theorem corner_condition (c0 c1 c2 c3 : Bool) (p : ℚ × ℚ) :
    (if (!(c0 && c1 && c2 && c3)) && (c0 || c1 || c2 || c3) then some p else none) =
    (if c0 = c1 ∧ c1 = c2 ∧ c2 = c3 then none else some p) := by
  cases c0 <;> cases c1 <;> cases c2 <;> cases c3 <;> simp

/-- Updating with a post-update speed above `0.05` strictly inflates the
radius past the (preserved) base radius, provided the base radius is
positive and `max_stretch` exceeds `1`. -/
theorem update_radius_gt_base (s : BlobPhysics) (tx ty dt : ℝ)
    (hb : 0 < s.base_radius) (hm : 1 < s.max_stretch)
    (hs : 0.05 < Real.sqrt ((s.update tx ty dt).vx ^ 2 + (s.update tx ty dt).vy ^ 2)) :
    (s.update tx ty dt).base_radius < (s.update tx ty dt).radius := by
  have hr : (s.update tx ty dt).radius =
      s.base_radius * (1 + min (Real.sqrt ((s.update tx ty dt).vx ^ 2 +
        (s.update tx ty dt).vy ^ 2) / 0.5) (s.max_stretch - 1) * 0.3) := rfl
  have hbb : (s.update tx ty dt).base_radius = s.base_radius := rfl
  have hmin : 0 < min (Real.sqrt ((s.update tx ty dt).vx ^ 2 +
      (s.update tx ty dt).vy ^ 2) / 0.5) (s.max_stretch - 1) := by
    refine lt_min (div_pos (by linarith) (by norm_num)) (by linarith)
  rw [hr, hbb]
  nlinarith [hmin, hb]

/-- Tuning constants along the C9 trajectory are those set by the
constructor. -/
theorem traj_params (k : ℕ) :
    (traj k).stiffness = 0.08 ∧ (traj k).damping = 0.85 ∧
    (traj k).max_stretch = 1.5 ∧ (traj k).base_radius = 1.5 := by
  induction k with
  | zero => exact ⟨rfl, rfl, rfl, rfl⟩
  | succ k ih => exact ih

/-- Denominators of the integer mirror are positive. -/
theorem itraj_p_pos (k : ℕ) : 0 < (itraj k).2.2 := by
  induction k with
  | zero => norm_num [itraj]
  | succ k ih =>
    have hp : (itraj (k + 1)).2.2 = 500 * (itraj k).2.2 := rfl
    rw [hp]
    positivity

/-- Bridge between the real trajectory and its integer mirror: position and
velocity scaled by the denominator are the stored integers, and the
trajectory stays on the x-axis. -/
theorem traj_itraj (k : ℕ) :
    (traj k).x * ((itraj k).2.2 : ℝ) = ((itraj k).1 : ℝ) ∧
    (traj k).vx * ((itraj k).2.2 : ℝ) = ((itraj k).2.1 : ℝ) ∧
    (traj k).y = 0 ∧ (traj k).vy = 0 := by
  induction k with
  | zero =>
    refine ⟨?_, ?_, rfl, rfl⟩ <;> norm_num [traj, BlobPhysics.init, itraj]
  | succ k ih =>
    obtain ⟨hx, hv, hy, hvy⟩ := ih
    obtain ⟨hst, hdp, -, -⟩ := traj_params k
    have hvx1 : (traj (k + 1)).vx =
        ((traj k).vx + (3 - (traj k).x) * (traj k).stiffness) * (traj k).damping := rfl
    have hx1 : (traj (k + 1)).x = (traj k).x + (traj (k + 1)).vx := rfl
    have hvy1 : (traj (k + 1)).vy =
        ((traj k).vy + (0 - (traj k).y) * (traj k).stiffness) * (traj k).damping := rfl
    have hy1 : (traj (k + 1)).y = (traj k).y + (traj (k + 1)).vy := rfl
    have ha1 : (itraj (k + 1)).1 = 500 * (itraj k).1 + (itraj (k + 1)).2.1 := rfl
    have hb1 : (itraj (k + 1)).2.1 =
        17 * (25 * (itraj k).2.1 + 2 * (3 * (itraj k).2.2 - (itraj k).1)) := rfl
    have hp1 : (itraj (k + 1)).2.2 = 500 * (itraj k).2.2 := rfl
    have hvstep : (traj (k + 1)).vx * ((itraj (k + 1)).2.2 : ℝ) = ((itraj (k + 1)).2.1 : ℝ) := by
      rw [hvx1, hst, hdp, hb1, hp1]
      push_cast
      linear_combination (425 : ℝ) * hv - 34 * hx
    refine ⟨?_, hvstep, ?_, ?_⟩
    · rw [hx1, hvx1, hst, hdp, ha1, hb1, hp1]
      push_cast
      linear_combination (466 : ℝ) * hx + (425 : ℝ) * hv
    · rw [hy1, hvy1, hy, hvy, hst, hdp]; ring
    · rw [hvy1, hy, hvy, hst, hdp]; ring

/-- Position along the C9 trajectory as an exact fraction of the integer
mirror. -/
theorem traj_x_eq_div (k : ℕ) :
    (traj k).x = ((itraj k).1 : ℝ) / ((itraj k).2.2 : ℝ) := by
  obtain ⟨hx, -, -, -⟩ := traj_itraj k
  have hp : (0 : ℝ) < ((itraj k).2.2 : ℝ) := by exact_mod_cast itraj_p_pos k
  rw [eq_div_iff (ne_of_gt hp)]
  exact hx

/-! Claim theorems. -/

/-- C1: `BlobPhysics.update(target_x, target_y, dt)` performs exactly the
spring step `vx += (targetX - x) * 0.08`, the damping step `vx *= 0.85`,
the position step `x += vx`, and the stretch step
`radius = baseRadius * (1 + min(sqrt(vx² + vy²) / 0.5, maxStretch - 1) * 0.3)`
with `maxStretch = 1.5` (same for the y components), and the result is
identical for every value of `dt`. -/
theorem update_step_exact (s : BlobPhysics) (target_x target_y dt dt2 : ℝ)
    (hst : s.stiffness = 0.08) (hdp : s.damping = 0.85) (hms : s.max_stretch = 1.5) :
    s.update target_x target_y dt =
      ⟨s.x + (s.vx + (target_x - s.x) * 0.08) * 0.85,
       s.y + (s.vy + (target_y - s.y) * 0.08) * 0.85,
       (s.vx + (target_x - s.x) * 0.08) * 0.85,
       (s.vy + (target_y - s.y) * 0.08) * 0.85,
       s.base_radius,
       s.base_radius * (1 +
         min (Real.sqrt (((s.vx + (target_x - s.x) * 0.08) * 0.85) ^ 2 +
             ((s.vy + (target_y - s.y) * 0.08) * 0.85) ^ 2) / 0.5)
           (1.5 - 1) * 0.3),
       0.08, 0.85, 1.5⟩ ∧
    s.update target_x target_y dt = s.update target_x target_y dt2 := by
  obtain ⟨x, y, vx, vy, br, r, st, dp, ms⟩ := s
  subst hst
  subst hdp
  subst hms
  exact ⟨rfl, rfl⟩

/-- Witness for C1: a concrete body constructed by `__init__` satisfies the
constant hypotheses, and its update does not depend on `dt`. -/
theorem update_step_exact_witness :
    (BlobPhysics.init 0 0 1.5).stiffness = 0.08 ∧
    (BlobPhysics.init 0 0 1.5).update 0 0 (1 / 60) = (BlobPhysics.init 0 0 1.5).update 0 0 1 :=
  ⟨rfl, (update_step_exact (BlobPhysics.init 0 0 1.5) 0 0 (1 / 60) 1 rfl rfl rfl).2⟩

/-- C2: `field_value(x, y)` is the sum over sources of
`radius² / (dx² + dy² + ε)` with `ε = 1e-4`, and with an empty source list
it is `0` for every query point. -/
theorem field_value_eq_sum (f : MetaballField) (x y : ℚ) :
    f.field_value x y =
      (f.blobs.map (fun b =>
        b.r * b.r / ((x - b.x) * (x - b.x) + (y - b.y) * (y - b.y) + 1 / 10000))).sum ∧
    ∀ t : ℚ, (MetaballField.mk t []).field_value x y = 0 := by
  constructor
  · rw [MetaballField.field_value, foldl_add_eq_add_sum, zero_add]
    simp only [show (0.0001 : ℚ) = 1 / 10000 by norm_num]
  · intro t; rfl

/-- C3: after every update the stored radius satisfies the invariant
`currentRadius = baseRadius * (1 + stretchFactor * 0.3)` with
`stretchFactor = clamp(speed / 0.5, 0, maxStretch - 1)` (written here as
`max 0 (min _ _)`) and `speed` the post-update speed; the lower clamp at
`0` is vacuous because the speed is a square root, which is why the source
can use a bare `min`. -/
theorem radius_invariant_after_update (s : BlobPhysics) (target_x target_y dt : ℝ)
    (hms : 1 ≤ s.max_stretch) :
    (s.update target_x target_y dt).radius =
      (s.update target_x target_y dt).base_radius *
        (1 + max 0 (min (Real.sqrt ((s.update target_x target_y dt).vx ^ 2 +
            (s.update target_x target_y dt).vy ^ 2) / 0.5)
          ((s.update target_x target_y dt).max_stretch - 1)) * 0.3) := by
  have hr : (s.update target_x target_y dt).radius =
      s.base_radius * (1 + min (Real.sqrt ((s.update target_x target_y dt).vx ^ 2 +
        (s.update target_x target_y dt).vy ^ 2) / 0.5) (s.max_stretch - 1) * 0.3) := rfl
  have hbb : (s.update target_x target_y dt).base_radius = s.base_radius := rfl
  have hmm : (s.update target_x target_y dt).max_stretch = s.max_stretch := rfl
  have h0 : 0 ≤ min (Real.sqrt ((s.update target_x target_y dt).vx ^ 2 +
      (s.update target_x target_y dt).vy ^ 2) / 0.5) (s.max_stretch - 1) :=
    le_min (div_nonneg (Real.sqrt_nonneg _) (by norm_num)) (by linarith)
  rw [hr, hbb, hmm, max_eq_right h0]

/-- Witness for C3 at a constructed body and a concrete target. -/
theorem radius_invariant_after_update_witness :
    1 ≤ (BlobPhysics.init 0 0 1.5).max_stretch ∧
    ((BlobPhysics.init 0 0 1.5).update 1 0 (1 / 60)).radius =
      ((BlobPhysics.init 0 0 1.5).update 1 0 (1 / 60)).base_radius *
        (1 + max 0 (min (Real.sqrt (((BlobPhysics.init 0 0 1.5).update 1 0 (1 / 60)).vx ^ 2 +
            ((BlobPhysics.init 0 0 1.5).update 1 0 (1 / 60)).vy ^ 2) / 0.5)
          (((BlobPhysics.init 0 0 1.5).update 1 0 (1 / 60)).max_stretch - 1)) * 0.3) :=
  ⟨by norm_num [BlobPhysics.init],
   radius_invariant_after_update (BlobPhysics.init 0 0 1.5) 1 0 (1 / 60)
     (by norm_num [BlobPhysics.init])⟩

/-- C4: for positive resolution the boundary scan emits exactly the centers
of the cells whose four corner classifications are not all equal, in the
row-major cell order; `get_boundary_points_spec` restates the scan with the
emission condition phrased that way, and the two agree. -/
theorem get_boundary_points_eq_spec (f : MetaballField) (resolution : ℕ)
    (bounds : ℚ × ℚ × ℚ × ℚ) (hres : 0 < resolution) :
    f.get_boundary_points resolution bounds =
      get_boundary_points_spec f resolution bounds := by
  obtain ⟨x_min, x_max, y_min, y_max⟩ := bounds
  simp only [MetaballField.get_boundary_points, get_boundary_points_spec, corner_condition]

/-- Witness for C4 at resolution `2` with a single source. -/
theorem get_boundary_points_eq_spec_witness :
    0 < 2 ∧
    (MetaballField.mk 1 [⟨0, 0, 2⟩]).get_boundary_points 2 (-8, 8, -4.5, 4.5) =
      get_boundary_points_spec (MetaballField.mk 1 [⟨0, 0, 2⟩]) 2 (-8, 8, -4.5, 4.5) :=
  ⟨by norm_num,
   get_boundary_points_eq_spec (MetaballField.mk 1 [⟨0, 0, 2⟩]) 2 (-8, 8, -4.5, 4.5)
     (by norm_num)⟩

/-- C5: `generate_points` is a total function (no exception reaches the
caller); a boundary cloud with fewer than 3 points yields the single-point
placeholder, and a failing hull construction yields the fallback unit
circle. -/
theorem generate_points_fallback_behaviour (hull : List (ℚ × ℚ) → Option (List (ℚ × ℚ)))
    (f : MetaballField) (resolution : ℕ) :
    ((f.get_boundary_points resolution (-8, 8, -4.5, 4.5)).length < 3 →
      generate_points hull f resolution = GenPoints.placeholder) ∧
    (3 ≤ (f.get_boundary_points resolution (-8, 8, -4.5, 4.5)).length →
      hull (f.get_boundary_points resolution (-8, 8, -4.5, 4.5)) = none →
      generate_points hull f resolution = GenPoints.fallback_circle) := by
  constructor
  · intro h
    simp only [generate_points, if_pos h]
  · intro h hh
    have hlt : ¬ (f.get_boundary_points resolution (-8, 8, -4.5, 4.5)).length < 3 := by
      omega
    simp only [generate_points, if_neg hlt, hh]

/-- Witness for C5: an empty field gives the placeholder, and a field whose
boundary cloud has 4 points gives the fallback circle when the hull oracle
fails. -/
theorem generate_points_fallback_behaviour_witness :
    (((MetaballField.mk 1 []).get_boundary_points 2 (-8, 8, -4.5, 4.5)).length < 3 ∧
      generate_points (fun _ => none) (MetaballField.mk 1 []) 2 = GenPoints.placeholder) ∧
    (3 ≤ ((MetaballField.mk 1 [⟨0, 0, 2⟩]).get_boundary_points 2 (-8, 8, -4.5, 4.5)).length ∧
      generate_points (fun _ => none) (MetaballField.mk 1 [⟨0, 0, 2⟩]) 2 =
        GenPoints.fallback_circle) := by
  have hlen1 : ((MetaballField.mk 1 []).get_boundary_points 2 (-8, 8, -4.5, 4.5)).length < 3 := by
    norm_num [MetaballField.get_boundary_points, MetaballField.is_inside,
      MetaballField.field_value, List.foldl, List.range_succ, List.filterMap_cons]
  have hlen2 :
      3 ≤ ((MetaballField.mk 1 [⟨0, 0, 2⟩]).get_boundary_points 2 (-8, 8, -4.5, 4.5)).length := by
    norm_num [MetaballField.get_boundary_points, MetaballField.is_inside,
      MetaballField.field_value, List.foldl, List.range_succ, List.filterMap_cons]
  exact ⟨⟨hlen1, (generate_points_fallback_behaviour (fun _ => none) (MetaballField.mk 1 []) 2).1
      hlen1⟩,
    ⟨hlen2, (generate_points_fallback_behaviour (fun _ => none)
      (MetaballField.mk 1 [⟨0, 0, 2⟩]) 2).2 hlen2 rfl⟩⟩

/-- C6: `is_inside(x, y)` returns true exactly when
`field_value(x, y) ≥ threshold`; a point whose field exactly equals the
threshold is classified inside. -/
theorem is_inside_iff_ge_threshold (f : MetaballField) (x y : ℚ) :
    (f.is_inside x y = true ↔ f.field_value x y ≥ f.threshold) ∧
    (f.field_value x y = f.threshold → f.is_inside x y = true) := by
  constructor
  · simp [MetaballField.is_inside, ge_iff_le]
  · intro h
    simp [MetaballField.is_inside, h]

/-- Witness for C6: a point whose field value is exactly the threshold
`10000/10001` is classified inside. -/
theorem is_inside_iff_ge_threshold_witness :
    (MetaballField.mk (10000 / 10001) [⟨0, 0, 1⟩]).field_value 0 1 = (10000 / 10001 : ℚ) ∧
    (MetaballField.mk (10000 / 10001) [⟨0, 0, 1⟩]).is_inside 0 1 = true := by
  have h : (MetaballField.mk (10000 / 10001) [⟨0, 0, 1⟩]).field_value 0 1 =
      (10000 / 10001 : ℚ) := by
    norm_num [MetaballField.field_value, List.foldl]
  exact ⟨h, (is_inside_iff_ge_threshold (MetaballField.mk (10000 / 10001) [⟨0, 0, 1⟩]) 0 1).2 h⟩

/-- C7 counterexample: with a single source of radius `1` at the origin and
threshold `1 ≤ 1`, the point `(99999/100000, 0)` lies strictly inside the
radius (its squared distance is below `1²`) yet its field value is below
the threshold, because of the `ε = 1e-4` term in the denominator.  This
refutes the claim that every point strictly inside the radius has
`fieldValue ≥ threshold`. -/
theorem strictly_inside_field_below_threshold :
    ((99999 / 100000 : ℚ) - 0) * ((99999 / 100000 : ℚ) - 0) + (0 - 0) * (0 - 0) < 1 * 1 ∧
    (1 : ℚ) ≤ 1 ∧
    (MetaballField.mk 1 [⟨0, 0, 1⟩]).field_value (99999 / 100000) 0 < 1 := by
  refine ⟨by norm_num, le_refl 1, ?_⟩
  norm_num [MetaballField.field_value, List.foldl]

/-- C7 amended: for a single source of radius `r > 0` and threshold
`t ≤ 1`, every point whose squared distance from the center is at most
`r² - ε` (that is, `d² + ε ≤ r²` with `ε = 1e-4`) has
`fieldValue ≥ t`. -/
theorem field_ge_threshold_of_sq_margin (cx cy r t x y : ℚ) (hr : 0 < r) (ht : t ≤ 1)
    (hd : (x - cx) * (x - cx) + (y - cy) * (y - cy) + 0.0001 ≤ r * r) :
    (MetaballField.mk t [⟨cx, cy, r⟩]).field_value x y ≥ t := by
  have hpos : 0 < (x - cx) * (x - cx) + (y - cy) * (y - cy) + 0.0001 := by
    nlinarith [mul_self_nonneg (x - cx), mul_self_nonneg (y - cy)]
  have hfv : (MetaballField.mk t [⟨cx, cy, r⟩]).field_value x y =
      r * r / ((x - cx) * (x - cx) + (y - cy) * (y - cy) + 0.0001) := by
    simp [MetaballField.field_value, List.foldl]
  rw [hfv]
  have h1 : (1 : ℚ) ≤ r * r / ((x - cx) * (x - cx) + (y - cy) * (y - cy) + 0.0001) :=
    (one_le_div hpos).mpr hd
  linarith

/-- Witness for the amended C7 at the source center itself. -/
theorem field_ge_threshold_of_sq_margin_witness :
    (0 : ℚ) < 1 ∧ (1 : ℚ) ≤ 1 ∧
    ((0 : ℚ) - 0) * ((0 : ℚ) - 0) + ((0 : ℚ) - 0) * ((0 : ℚ) - 0) + 0.0001 ≤ 1 * 1 ∧
    (MetaballField.mk 1 [⟨0, 0, 1⟩]).field_value 0 0 ≥ 1 :=
  ⟨by norm_num, le_refl 1, by norm_num,
   field_ge_threshold_of_sq_margin 0 0 1 1 0 0 (by norm_num) (le_refl 1) (by norm_num)⟩

/-- C8 counterexample: a source with radius `-1 ≤ 0` contributes `10000`
(not `0`) to the field at its own center, because the source squares the
radius; the claim that every source with radius `≤ 0` contributes zero is
false for negative radii. -/
theorem negative_radius_contributes_positively :
    ((-1 : ℚ) ≤ 0) ∧
    (MetaballField.mk 1 [⟨0, 0, -1⟩]).field_value 0 0 = 10000 ∧
    (MetaballField.mk 1 []).field_value 0 0 = 0 := by
  refine ⟨by norm_num, ?_, rfl⟩
  norm_num [MetaballField.field_value, List.foldl]

/-- C8 amended: evaluation never crashes (the embedded `field_value` is
total, `ℚ` division by the `ε`-padded denominator included); a source with
radius exactly `0` contributes zero, and a source with radius `-r`
contributes the same as one with radius `r` (the radius is squared), so a
negative radius gives a positive, not zero, contribution. -/
theorem zero_radius_contributes_nothing (t : ℚ) (blobs : List Blob) (x y cx cy r : ℚ) :
    (MetaballField.mk t (blobs ++ [⟨cx, cy, 0⟩])).field_value x y =
      (MetaballField.mk t blobs).field_value x y ∧
    (MetaballField.mk t (blobs ++ [⟨cx, cy, -r⟩])).field_value x y =
      (MetaballField.mk t (blobs ++ [⟨cx, cy, r⟩])).field_value x y := by
  constructor
  · simp [MetaballField.field_value, List.foldl_append]
  · simp [MetaballField.field_value, List.foldl_append, neg_mul_neg]

/-- C9 counterexample: in the spec scenario (start at the origin, base
radius `1.5`, 60 updates toward `(3, 0)` with `dt = 1/60`) the position
overshoots past the claimed bound `3 * (1/0.85) ≈ 3.53` by tick 12
(`x ≈ 4.13`), and decreases from tick 12 to tick 13, so `x` neither stays
within the bound nor approaches `3` monotonically. -/
theorem blob_scenario_overshoots_bound :
    3 * (1 / 0.85) < (traj 12).x ∧ (traj 13).x < (traj 12).x := by
  have hp12 : (0 : ℝ) < ((itraj 12).2.2 : ℝ) := by exact_mod_cast itraj_p_pos 12
  have hp13 : (0 : ℝ) < ((itraj 13).2.2 : ℝ) := by exact_mod_cast itraj_p_pos 13
  constructor
  · rw [traj_x_eq_div 12, show (3 : ℝ) * (1 / 0.85) = 60 / 17 by norm_num,
      div_lt_div_iff (by norm_num) hp12]
    have hint : (60 : ℤ) * (itraj 12).2.2 < 17 * (itraj 12).1 := by decide
    have hcast : (60 : ℝ) * ((itraj 12).2.2 : ℝ) < 17 * ((itraj 12).1 : ℝ) := by
      exact_mod_cast hint
    linarith
  · rw [traj_x_eq_div 12, traj_x_eq_div 13, div_lt_div_iff hp13 hp12]
    have hint : (itraj 13).1 * (itraj 12).2.2 < (itraj 12).1 * (itraj 13).2.2 := by decide
    have hcast : ((itraj 13).1 : ℝ) * ((itraj 12).2.2 : ℝ) <
        ((itraj 12).1 : ℝ) * ((itraj 13).2.2 : ℝ) := by exact_mod_cast hint
    linarith

/-- C9 amended: in the spec scenario the position increases monotonically
for the first 12 ticks, stays below `4.13` throughout the 60 ticks (it
does overshoot `3` and the claimed `3 * (1/0.85)` bound, peaking at tick
12), and the current radius strictly exceeds the base radius on every tick
whose post-update speed exceeds `0.05`. -/
theorem blob_scenario_amended :
    (∀ k < 12, (traj k).x ≤ (traj (k + 1)).x) ∧
    (∀ k < 61, (traj k).x ≤ 4.13) ∧
    (∀ k < 61, 0.05 < Real.sqrt ((traj k).vx ^ 2 + (traj k).vy ^ 2) →
      (traj k).base_radius < (traj k).radius) := by
  refine ⟨?_, ?_, ?_⟩
  · intro k hk
    have hpk : (0 : ℝ) < ((itraj k).2.2 : ℝ) := by exact_mod_cast itraj_p_pos k
    have hpk1 : (0 : ℝ) < ((itraj (k + 1)).2.2 : ℝ) := by exact_mod_cast itraj_p_pos (k + 1)
    rw [traj_x_eq_div k, traj_x_eq_div (k + 1), div_le_div_iff hpk hpk1]
    have hint : ∀ m < 12, (itraj m).1 * (itraj (m + 1)).2.2 ≤
        (itraj (m + 1)).1 * (itraj m).2.2 := by decide
    have hcast : ((itraj k).1 : ℝ) * ((itraj (k + 1)).2.2 : ℝ) ≤
        ((itraj (k + 1)).1 : ℝ) * ((itraj k).2.2 : ℝ) := by exact_mod_cast hint k hk
    linarith
  · intro k hk
    have hpk : (0 : ℝ) < ((itraj k).2.2 : ℝ) := by exact_mod_cast itraj_p_pos k
    rw [traj_x_eq_div k, show (4.13 : ℝ) = 413 / 100 by norm_num,
      div_le_div_iff hpk (by norm_num)]
    have hint : ∀ m < 61, 100 * (itraj m).1 ≤ 413 * (itraj m).2.2 := by decide
    have hcast : (100 : ℝ) * ((itraj k).1 : ℝ) ≤ 413 * ((itraj k).2.2 : ℝ) := by
      exact_mod_cast hint k hk
    linarith
  · intro k hk hs
    match k with
    | 0 =>
      have hvx : (traj 0).vx = 0 := rfl
      have hvy : (traj 0).vy = 0 := rfl
      rw [hvx, hvy, show ((0 : ℝ) ^ 2 + 0 ^ 2) = 0 by norm_num, Real.sqrt_zero] at hs
      linarith
    | k + 1 =>
      obtain ⟨-, -, hms, hbr⟩ := traj_params k
      exact update_radius_gt_base (traj k) 3 0 (1 / 60)
        (by rw [hbr]; norm_num) (by rw [hms]; norm_num) hs

/-- Witness for the amended C9: a monotone step, the bound at the peak
tick, and the radius inflation at tick 1 where the speed is `0.204`. -/
theorem blob_scenario_amended_witness :
    ((traj 3).x ≤ (traj 4).x) ∧ ((traj 12).x ≤ 4.13) ∧
    (0.05 < Real.sqrt ((traj 1).vx ^ 2 + (traj 1).vy ^ 2) ∧
      (traj 1).base_radius < (traj 1).radius) := by
  have hvx : (traj 1).vx = 0.204 := by
    norm_num [traj, BlobPhysics.init, BlobPhysics.update]
  have hvy : (traj 1).vy = 0 := by
    norm_num [traj, BlobPhysics.init, BlobPhysics.update]
  have hs : 0.05 < Real.sqrt ((traj 1).vx ^ 2 + (traj 1).vy ^ 2) := by
    rw [hvx, hvy, show ((0.204 : ℝ) ^ 2 + 0 ^ 2) = 0.204 ^ 2 by ring,
      Real.sqrt_sq (by norm_num : (0 : ℝ) ≤ 0.204)]
    norm_num
  exact ⟨blob_scenario_amended.1 3 (by norm_num), blob_scenario_amended.2.1 12 (by norm_num),
    hs, blob_scenario_amended.2.2 1 (by norm_num) hs⟩

/-- C10: `BlobPhysics.update` leaves the base radius and the tuning
constants `stiffness`, `damping`, `max_stretch` unchanged; only `x`, `y`,
`vx`, `vy` and `radius` are recomputed. -/
theorem update_preserves_parameters (s : BlobPhysics) (target_x target_y dt : ℝ) :
    (s.update target_x target_y dt).base_radius = s.base_radius ∧
    (s.update target_x target_y dt).stiffness = s.stiffness ∧
    (s.update target_x target_y dt).damping = s.damping ∧
    (s.update target_x target_y dt).max_stretch = s.max_stretch :=
  ⟨rfl, rfl, rfl, rfl⟩

end DemHero
